import Mathlib

/-!
Verification of the planner server core (src/Backend/server.js): the
grade calculator (`getGPA`, `getGrade`), the cumulative-GPA aggregation
(`GET /api/gpa`), and the note store (filtered listing, create, update,
soft delete, permanent delete, distinct tags).

Numbers are modelled as rationals: the server's numeric comparisons and
the exact arithmetic that the claims are about are faithfully captured
(no NaN arises in any modelled path; the division in the GPA handler is
guarded exactly as in the source). `toFixed(2)` — which in JavaScript
returns a string — is modelled as a string-producing function, so the
type of each JSON field in a response is visible in the model.
-/

namespace Planner

/-! ### GradeCalculator (server.js lines 60–78) -/

/-- `getGPA(percentage)` from server.js: the grade-point threshold table. -/
def getGPA (percentage : ℚ) : ℚ :=
  if percentage ≥ 85 then 4
  else if percentage ≥ 75 then mkRat 15 4   -- 3.75
  else if percentage ≥ 70 then mkRat 7 2    -- 3.5
  else if percentage ≥ 65 then 3
  else if percentage ≥ 60 then mkRat 5 2    -- 2.5
  else if percentage ≥ 50 then 2
  else 0

/-- `getGrade(percentage)` from server.js: the letter-grade threshold table. -/
def getGrade (percentage : ℚ) : String :=
  if percentage ≥ 85 then "A+"
  else if percentage ≥ 75 then "A"
  else if percentage ≥ 70 then "B+"
  else if percentage ≥ 65 then "B"
  else if percentage ≥ 60 then "C+"
  else if percentage ≥ 50 then "C"
  else "F"

/-- The grade-point value the spec's threshold table (§4.1) associates with each
letter; used to state that `getGrade` and `getGPA` report the same band. -/
def bandPoints (letter : String) : ℚ :=
  if letter = "A+" then 4
  else if letter = "A" then mkRat 15 4
  else if letter = "B+" then mkRat 7 2
  else if letter = "B" then 3
  else if letter = "C+" then mkRat 5 2
  else if letter = "C" then 2
  else 0

/-! ### GradeRecord and the GPA aggregation (server.js lines 110–120, 370–399) -/

/-- A grade record as stored by `gradeRecordSchema` (the opaque `_id` is a `Nat`
in the model). -/
structure GradeRecord where
  id : Nat
  userId : String
  course : String
  score : ℚ
  creditHours : ℚ
  grade : String
  gpa : ℚ
  createdAt : Int
deriving DecidableEq, Repr

/-- A JSON value that is either a number or a string: the `gpa` field of the
`/api/gpa` response is `finalGPA.toFixed(2)` (a string) on the non-empty path
and the number `0` on the empty path, so its type must be part of the model. -/
inductive JsonVal where
  | num : ℚ → JsonVal
  | str : String → JsonVal
deriving DecidableEq, Repr

/-- The body of the `/api/gpa` response. -/
structure GpaResult where
  gpa : JsonVal
  creditTotal : ℚ
deriving DecidableEq, Repr

/-- JavaScript `Number.prototype.toFixed(2)`: the decimal string with two
fraction digits nearest to the value, ties rounded away from zero (the ES
algorithm negates first and breaks ties upward on the absolute value).
`(|q.num| * 200 + q.den) / (2 * q.den)` is `⌊|q| * 100 + 1/2⌋` computed on the
reduced fraction with `Nat` division. -/
def toFixed2 (q : ℚ) : String :=
  let sign := if q.num < 0 then "-" else ""
  let n : Nat := (q.num.natAbs * 200 + q.den) / (2 * q.den)
  let frac := n % 100
  sign ++ toString (n / 100) ++ "." ++ (if frac < 10 then "0" else "") ++ toString frac

/-- The `GET /api/gpa` handler body (server.js lines 370–399): empty record sets
short-circuit to `{gpa: 0, creditTotal: 0}`; otherwise a `reduce` accumulates
the credit-weighted sum and the credit total, the division is guarded by the
truthiness of `totalCredit`, and the quotient is rendered with `toFixed(2)`. -/
def cumulativeGPA (records : List GradeRecord) : GpaResult :=
  if records = [] then { gpa := JsonVal.num 0, creditTotal := 0 }
  else
    let acc := records.foldl
      (fun acc r => (acc.1 + r.gpa * r.creditHours, acc.2 + r.creditHours))
      ((0 : ℚ), (0 : ℚ))
    let finalGPA := if acc.2 ≠ 0 then acc.1 / acc.2 else 0
    { gpa := JsonVal.str (toFixed2 finalGPA), creditTotal := acc.2 }

/-! ### Note store (server.js lines 96–107 and 204–325)

The MongoDB collection is a list of notes; `findOneAndUpdate` /
`findOneAndDelete` act on the first document matching their filter, and a
mongoose update document without operators is applied as `$set`. -/

/-- A note as stored by `noteSchema` (server.js lines 96–105); the opaque
`_id` is a `Nat` in the model. -/
structure Note where
  id : Nat
  title : String
  content : String
  courseTag : String
  isPinned : Bool
  isArchived : Bool
  isDeleted : Bool
  userId : String
  createdAt : Int
deriving DecidableEq, Repr

/-- The ownership filter `{ _id: id, userId }` used by the update and delete
handlers. -/
def ownedBy (uid : String) (id : Nat) (n : Note) : Bool :=
  n.id == id && n.userId == uid

/-- `findOneAndUpdate(filter, f, {new: true})`: rewrite the first matching
document with `f` and return the rewritten document (or `none` and the
untouched list when nothing matches). -/
def updateFirst (p : Note → Bool) (f : Note → Note) : List Note → Option Note × List Note
  | [] => (none, [])
  | n :: rest =>
    if p n then (some (f n), f n :: rest)
    else
      let r := updateFirst p f rest
      (r.1, n :: r.2)

/-- `findOneAndDelete(filter)`: remove the first matching document and return
it (or `none` and the untouched list when nothing matches). -/
def removeFirst (p : Note → Bool) : List Note → Option Note × List Note
  | [] => (none, [])
  | n :: rest =>
    if p n then (some n, rest)
    else
      let r := removeFirst p rest
      (r.1, n :: r.2)

/-- The destructured `PUT /api/notes/:id` body (server.js line 245): a field
is `none` exactly when it is `undefined` in the request. -/
structure UpdateBody where
  title : Option String := none
  content : Option String := none
  courseTag : Option String := none
  isPinned : Option Bool := none
  isArchived : Option Bool := none
  isDeleted : Option Bool := none
deriving DecidableEq, Repr

/-- The `$set: updateFields` document built by the `PUT` handler (server.js
lines 250–256): each field is overwritten exactly when it was provided. -/
def applySet (b : UpdateBody) (n : Note) : Note :=
  { n with
    title := b.title.getD n.title
    content := b.content.getD n.content
    courseTag := b.courseTag.getD n.courseTag
    isPinned := b.isPinned.getD n.isPinned
    isArchived := b.isArchived.getD n.isArchived
    isDeleted := b.isDeleted.getD n.isDeleted }

/-- The `PUT /api/notes/:id` handler (server.js lines 243–273). -/
def updateNote (db : List Note) (uid : String) (id : Nat) (b : UpdateBody) :
    Option Note × List Note :=
  updateFirst (ownedBy uid id) (applySet b) db

/-- The `DELETE /api/notes/:id` handler (server.js lines 277–293): a
`findOneAndUpdate` whose update document sets only `isDeleted: true`. -/
def softDeleteNote (db : List Note) (uid : String) (id : Nat) :
    Option Note × List Note :=
  updateFirst (ownedBy uid id) (fun n => { n with isDeleted := true }) db

/-- The `DELETE /api/notes/:id/permanent` handler (server.js lines 295–310). -/
def permanentDeleteNote (db : List Note) (uid : String) (id : Nat) :
    Option Note × List Note :=
  removeFirst (ownedBy uid id) db

/-- The filter object built by `GET /api/notes` (server.js lines 207–222).
`view` and `courseTag` are the raw query parameters (`none` = absent); a
string query value is truthy exactly when it is non-empty. -/
def noteFilter (uid : String) (view courseTag : Option String) (n : Note) : Bool :=
  n.userId == uid &&
    (if view == some "deleted" then n.isDeleted
     else if view == some "archive" then n.isArchived && !n.isDeleted
     else
       match courseTag with
       | some t =>
         if t ≠ "" then n.courseTag == t && !n.isArchived && !n.isDeleted
         else !n.isArchived && !n.isDeleted
       | none => !n.isArchived && !n.isDeleted)

/-- The comparator of `.sort({ isPinned: -1, createdAt: -1 })`: `a` may precede
`b` when `a` is pinned and `b` is not, or they tie on `isPinned` and `a` was
created no earlier than `b`. -/
def noteLE (a b : Note) : Bool :=
  (a.isPinned && !b.isPinned) || (a.isPinned == b.isPinned && b.createdAt ≤ a.createdAt)

/-- The `GET /api/notes` handler (server.js lines 207–226): filter by user and
view, then sort pinned-first and newest-first within each pin group. -/
def listNotes (db : List Note) (uid : String) (view courseTag : Option String) :
    List Note :=
  (db.filter (noteFilter uid view courseTag)).mergeSort noteLE

/-- JavaScript `String.prototype.trim` (the mongoose `trim: true` setter on
`courseTag`): drop leading and trailing whitespace. -/
def jsTrim (s : String) : String :=
  String.mk ((((s.data.dropWhile Char.isWhitespace).reverse.dropWhile
    Char.isWhitespace).reverse))

/-- The `POST /api/notes` body (server.js lines 230–236): `title`, `content`
and `courseTag` are taken from the request body and may each be absent. -/
structure CreateBody where
  title : Option String := none
  content : Option String := none
  courseTag : Option String := none
deriving DecidableEq, Repr

/-- The `POST /api/notes` handler (server.js lines 230–239) together with the
schema defaults and validators of `noteSchema` (lines 96–105): `title` and
`content` are required (mongoose rejects an absent or empty string), the
`trim` setter is applied to a provided `courseTag`, the `"General"` default
fires only when `courseTag` is `undefined`, the three state flags default to
`false`, `createdAt` is stamped, and the saved note is returned. -/
def createNote (db : List Note) (uid : String) (b : CreateBody)
    (newId : Nat) (now : Int) : Option Note × List Note :=
  match b.title, b.content with
  | some t, some c =>
    if t = "" ∨ c = "" then (none, db)
    else
      let note : Note :=
        { id := newId
          title := t
          content := c
          courseTag := match b.courseTag with
            | none => "General"
            | some s => jsTrim s
          isPinned := false
          isArchived := false
          isDeleted := false
          userId := uid
          createdAt := now }
      (some note, db ++ [note])
  | _, _ => (none, db)

/-- The `GET /api/tags` handler (server.js lines 313–325):
`Note.distinct("courseTag", {userId, isDeleted: false, isArchived: false})`
followed by `tags.filter(Boolean)` (which drops the empty string). -/
def distinctTags (db : List Note) (uid : String) : List String :=
  (((db.filter fun n => n.userId == uid && !n.isDeleted && !n.isArchived).map
      Note.courseTag).dedup).filter (fun t => t != "")

/-! ### The grade calculator: claim C1 -/

/-- C1: for every numeric score `s`, `getGrade` (the spec's `letterGrade`) and
`getGPA` (the spec's `gradePoint`) report the same threshold band (`getGPA s`
is exactly the point value the spec's table pairs with the letter
`getGrade s`); each band is closed on its lower bound (85 yields A+/4.00 and
any score in [75, 85) yields A/3.75, and likewise at 75, 70, 65, 60 and 50);
any negative score yields F/0.0 and any score above 100 yields A+/4.0. -/
theorem grade_tables_agree (s : ℚ) :
    getGPA s = bandPoints (getGrade s) ∧
    (getGrade 85 = "A+" ∧ getGPA 85 = 4) ∧
    (85 ≤ s → getGrade s = "A+" ∧ getGPA s = 4) ∧
    (75 ≤ s → s < 85 → getGrade s = "A" ∧ getGPA s = mkRat 15 4) ∧
    (70 ≤ s → s < 75 → getGrade s = "B+" ∧ getGPA s = mkRat 7 2) ∧
    (65 ≤ s → s < 70 → getGrade s = "B" ∧ getGPA s = 3) ∧
    (60 ≤ s → s < 65 → getGrade s = "C+" ∧ getGPA s = mkRat 5 2) ∧
    (50 ≤ s → s < 60 → getGrade s = "C" ∧ getGPA s = 2) ∧
    (s < 50 → getGrade s = "F" ∧ getGPA s = 0) ∧
    (s < 0 → getGrade s = "F" ∧ getGPA s = 0) ∧
    (100 < s → getGrade s = "A+" ∧ getGPA s = 4) := by
  refine ⟨?_, ?_, ?_, ?_, ?_, ?_, ?_, ?_, ?_, ?_, ?_⟩
  · unfold getGrade getGPA
    split_ifs <;> simp [bandPoints]
  all_goals (intros; unfold getGrade getGPA; split_ifs <;>
    first | exact ⟨rfl, rfl⟩ | rfl | linarith)

/-! ### The GPA aggregation: claims C2, C7, C10 -/

/-- The `reduce` of the `/api/gpa` handler computes the credit-weighted sum
and the credit total, from any initial accumulator. -/
theorem gpaFold (l : List GradeRecord) (p : ℚ × ℚ) :
    l.foldl (fun acc r => (acc.1 + r.gpa * r.creditHours, acc.2 + r.creditHours)) p
      = (p.1 + (l.map fun r => r.gpa * r.creditHours).sum,
         p.2 + (l.map GradeRecord.creditHours).sum) := by
  induction l generalizing p with
  | nil => simp
  | cons x xs ih => simp [ih, add_assoc]

/-- C2 counterexample: on the single record with `gpa = 4` and
`creditHours = -3` the claim forces `gpa` to be the number `0` (the credit
total `-3` is not positive), but the handler divides — `totalCredit` is
merely truthy — and returns the string `"4.00"`, not a number. -/
theorem gpa_response_string_cex :
    (cumulativeGPA [⟨1, "u", "Math", 90, -3, "A+", 4, 0⟩]).gpa = JsonVal.str "4.00" ∧
    (cumulativeGPA [⟨1, "u", "Math", 90, -3, "A+", 4, 0⟩]).gpa ≠ JsonVal.num 0 := by
  have h : (cumulativeGPA [⟨1, "u", "Math", 90, -3, "A+", 4, 0⟩]).gpa = JsonVal.str "4.00" := by
    simp only [cumulativeGPA, List.foldl]
    norm_num
    norm_num [toFixed2]
    rfl
  exact ⟨h, by rw [h]; intro hh; cases hh⟩

/-- C2 (amended): `creditTotal` is the unrounded sum of the records'
`creditHours`; the empty sequence yields the numeric `{gpa: 0, creditTotal: 0}`;
for a non-empty sequence the `gpa` field is the `toFixed(2)` string of the
weighted average — the weighted sum divided by `creditTotal` whenever
`creditTotal` is nonzero (also when it is negative), and `0` otherwise. -/
theorem cumulativeGPA_spec (l : List GradeRecord) :
    (cumulativeGPA l).creditTotal = (l.map GradeRecord.creditHours).sum ∧
    (l = [] → cumulativeGPA l = { gpa := JsonVal.num 0, creditTotal := 0 }) ∧
    (l ≠ [] → (cumulativeGPA l).gpa =
      JsonVal.str (toFixed2 (if (l.map GradeRecord.creditHours).sum ≠ 0
        then (l.map fun r => r.gpa * r.creditHours).sum / (l.map GradeRecord.creditHours).sum
        else 0))) := by
  by_cases h : l = []
  · subst h; simp [cumulativeGPA]
  · simp [cumulativeGPA, h, gpaFold]

/-- C7: the cumulative-GPA aggregation is invariant under permutation of its
input sequence — the whole response (both `gpa` and `creditTotal`) is equal. -/
theorem cumulativeGPA_perm_invariant (l₁ l₂ : List GradeRecord) (h : l₁.Perm l₂) :
    cumulativeGPA l₁ = cumulativeGPA l₂ := by
  by_cases h1 : l₁ = []
  · subst h1
    have : l₂ = [] := h.nil_eq.symm
    subst this; rfl
  · have h2 : l₂ ≠ [] := by
      intro e; subst e; exact h1 h.eq_nil
    have e1 : (l₁.map fun r => r.gpa * r.creditHours).sum
        = (l₂.map fun r => r.gpa * r.creditHours).sum :=
      (h.map _).sum_eq
    have e2 : (l₁.map GradeRecord.creditHours).sum = (l₂.map GradeRecord.creditHours).sum :=
      (h.map _).sum_eq
    simp [cumulativeGPA, h1, h2, gpaFold, e1, e2]

/-- Witness for C7 at a concrete two-record swap. -/
theorem cumulativeGPA_perm_invariant_wit :
    cumulativeGPA [⟨1, "u", "A", 90, 3, "A+", 4, 0⟩, ⟨2, "u", "B", 60, 1, "C+", mkRat 5 2, 0⟩]
      = cumulativeGPA [⟨2, "u", "B", 60, 1, "C+", mkRat 5 2, 0⟩, ⟨1, "u", "A", 90, 3, "A+", 4, 0⟩] :=
  cumulativeGPA_perm_invariant _ _ (List.Perm.swap _ _ _)

/-- C10: on a non-empty record set whose credit hours sum to `0` the division
is skipped (the `totalCredit ? … : 0` guard) and the handler returns the
rendering of the exact value `0` with `creditTotal = 0` — no NaN or infinity
can arise. -/
theorem cumulativeGPA_zero_credit_guard (l : List GradeRecord) (h1 : l ≠ [])
    (h2 : (l.map GradeRecord.creditHours).sum = 0) :
    cumulativeGPA l = { gpa := JsonVal.str "0.00", creditTotal := 0 } := by
  simp [cumulativeGPA, h1, gpaFold, h2]
  rfl

/-- Witness for C10: a single record of zero credit hours (credit-hour
positivity is not validated at grade creation). -/
theorem cumulativeGPA_zero_credit_guard_wit :
    cumulativeGPA [⟨1, "u", "Math", 40, 0, "F", 0, 0⟩]
      = { gpa := JsonVal.str "0.00", creditTotal := 0 } :=
  cumulativeGPA_zero_credit_guard _ (by simp) (by simp)

/-! ### Note listing: claim C3 -/

/-- The ordering contract of the spec (§4.3): `a` may come before `b` exactly
when `a` is pinned and `b` is not, or they agree on pin status and `a` was
created no earlier. -/
def sortOrder (a b : Note) : Prop :=
  (a.isPinned = true ∧ b.isPinned = false) ∨
    (a.isPinned = b.isPinned ∧ b.createdAt ≤ a.createdAt)

/-- The sort comparator is total. -/
theorem noteLE_total (a b : Note) : noteLE a b || noteLE b a := by
  unfold noteLE
  cases ha : a.isPinned <;> cases hb : b.isPinned <;> simp [ha, hb] <;> omega

/-- The sort comparator is transitive. -/
theorem noteLE_trans (a b c : Note) (h1 : noteLE a b) (h2 : noteLE b c) : noteLE a c := by
  unfold noteLE at *
  cases ha : a.isPinned <;> cases hb : b.isPinned <;> cases hc : c.isPinned <;>
    simp_all <;> omega

/-- The Boolean comparator implies the spec's ordering relation. -/
theorem noteLE_sortOrder (a b : Note) (h : noteLE a b) : sortOrder a b := by
  unfold noteLE at h
  unfold sortOrder
  cases ha : a.isPinned <;> cases hb : b.isPinned <;> simp_all

/-- C3: for every user and `(view, courseTag)` query, the note list is a
permutation of the user's notes selected by the handler's filter, where
membership is exactly: `view=deleted` → `isDeleted=true` regardless of
`isArchived`; `view=archive` → `isArchived=true ∧ isDeleted=false`; a
non-blank `courseTag` with neither of those views → that tag and both flags
false; otherwise → both flags false. The returned sequence is ordered pinned
notes first and, within each pin group, newest `createdAt` first. -/
theorem listNotes_spec (db : List Note) (uid : String) (view tag : Option String) :
    List.Perm (listNotes db uid view tag) (db.filter (noteFilter uid view tag)) ∧
    List.Sorted sortOrder (listNotes db uid view tag) ∧
    (view = some "deleted" →
      ∀ n : Note, n ∈ listNotes db uid view tag ↔
        n ∈ db ∧ n.userId = uid ∧ n.isDeleted = true) ∧
    (view = some "archive" →
      ∀ n : Note, n ∈ listNotes db uid view tag ↔
        n ∈ db ∧ n.userId = uid ∧ n.isArchived = true ∧ n.isDeleted = false) ∧
    (∀ t, view ≠ some "deleted" → view ≠ some "archive" → tag = some t → t ≠ "" →
      ∀ n : Note, n ∈ listNotes db uid view tag ↔
        n ∈ db ∧ n.userId = uid ∧ n.courseTag = t ∧ n.isArchived = false ∧
          n.isDeleted = false) ∧
    ((tag = none ∨ tag = some "") → view ≠ some "deleted" → view ≠ some "archive" →
      ∀ n : Note, n ∈ listNotes db uid view tag ↔
        n ∈ db ∧ n.userId = uid ∧ n.isArchived = false ∧ n.isDeleted = false) := by
  have hmem : ∀ n : Note, n ∈ listNotes db uid view tag ↔
      n ∈ db ∧ noteFilter uid view tag n = true := by
    intro n
    rw [listNotes, (List.mergeSort_perm _ noteLE).mem_iff, List.mem_filter]
  refine ⟨List.mergeSort_perm _ noteLE, ?_, ?_, ?_, ?_, ?_⟩
  · exact (List.sorted_mergeSort noteLE_trans noteLE_total _).imp
      (fun h => noteLE_sortOrder _ _ h)
  · intro hv n
    rw [hmem n, hv]
    simp [noteFilter]
  · intro hv n
    rw [hmem n, hv]
    simp [noteFilter]
  · intro t hd ha htag hne n
    rw [hmem n, htag]
    have h1 : (view == some "deleted") = false := by simpa using hd
    have h2 : (view == some "archive") = false := by simpa using ha
    simp [noteFilter, h1, h2, hne]
    tauto
  · intro htag hd ha n
    rw [hmem n]
    have h1 : (view == some "deleted") = false := by simpa using hd
    have h2 : (view == some "archive") = false := by simpa using ha
    rcases htag with h | h <;> subst h <;> simp [noteFilter, h1, h2]

/-! ### Update, soft delete, permanent delete: claims C4, C5, C6 -/

/-- `findOneAndUpdate` returns the image under the update of the first
matching document. -/
theorem updateFirst_fst (p : Note → Bool) (f : Note → Note) (db : List Note) :
    (updateFirst p f db).1 = (db.find? p).map f := by
  induction db with
  | nil => rfl
  | cons x xs ih =>
    by_cases hx : p x <;> simp [updateFirst, List.find?_cons, hx, ih]

/-- `findOneAndUpdate` with no matching document returns `null` and leaves the
collection unchanged. -/
theorem updateFirst_none (p : Note → Bool) (f : Note → Note) (db : List Note)
    (h : ∀ m ∈ db, p m = false) : updateFirst p f db = (none, db) := by
  induction db with
  | nil => rfl
  | cons x xs ih =>
    have hx := h x (List.mem_cons_self x xs)
    simp [updateFirst, hx, ih (fun m hm => h m (List.mem_cons_of_mem x hm))]

/-- `findOneAndDelete` with no matching document returns `null` and leaves the
collection unchanged. -/
theorem removeFirst_none (p : Note → Bool) (db : List Note)
    (h : ∀ m ∈ db, p m = false) : removeFirst p db = (none, db) := by
  induction db with
  | nil => rfl
  | cons x xs ih =>
    have hx := h x (List.mem_cons_self x xs)
    simp [removeFirst, hx, ih (fun m hm => h m (List.mem_cons_of_mem x hm))]

/-- When `find?` locates a document, `findOneAndUpdate` rewrites exactly that
occurrence and no other document. -/
theorem updateFirst_found (p : Note → Bool) (f : Note → Note) (db : List Note)
    (n : Note) (h : db.find? p = some n) :
    ∃ pre post, db = pre ++ n :: post ∧ (∀ m ∈ pre, p m = false) ∧ p n = true ∧
      updateFirst p f db = (some (f n), pre ++ f n :: post) := by
  induction db with
  | nil => cases h
  | cons x xs ih =>
    by_cases hx : p x
    · rw [List.find?_cons_of_pos _ hx] at h
      cases h
      exact ⟨[], xs, rfl, by simp, hx, by simp [updateFirst, hx]⟩
    · rw [List.find?_cons_of_neg _ hx] at h
      obtain ⟨pre, post, hdb, hpre, hpn, hres⟩ := ih h
      refine ⟨x :: pre, post, by simp [hdb], ?_, hpn, ?_⟩
      · intro m hm
        rcases List.mem_cons.mp hm with rfl | hm
        · simpa using hx
        · exact hpre m hm
      · simp [updateFirst, hx, hres]

/-- `find?` over a decomposed list whose prefix has no match. -/
theorem find?_decomp (p : Note → Bool) (pre : List Note) (n : Note) (post : List Note)
    (hpre : ∀ m ∈ pre, p m = false) (hn : p n = true) :
    (pre ++ n :: post).find? p = some n := by
  induction pre with
  | nil => simp [List.find?_cons, hn]
  | cons x xs ih =>
    have hx := hpre x (List.mem_cons_self x xs)
    simp only [List.cons_append, List.find?_cons, hx]
    exact ih (fun m hm => hpre m (List.mem_cons_of_mem x hm))

/-- C4 counterexample: an archived owned note
(`isArchived = true, isDeleted = false`), soft-deleted and then restored with
`{isDeleted: false}`, ends with `isArchived = true` — it reappears in the
archive view, not in the active state the claim requires. -/
theorem softDelete_restore_archived_cex :
    ((updateNote
        (softDeleteNote [⟨1, "T", "C", "General", false, true, false, "u", 0⟩] "u" 1).2
        "u" 1 { isDeleted := some false }).1).map Note.isArchived = some true := by
  decide

/-- C4 (amended): soft-deleting an owned note and then restoring it with an
update setting `isDeleted = false` returns the note with `isDeleted = false`
and every other field — `isArchived` included — exactly as before the
deletion: a previously active note is active again, while a previously
archived note returns to the archived state, not the active one. -/
theorem softDelete_then_restore (db : List Note) (uid : String) (id : Nat) (n : Note)
    (h : db.find? (ownedBy uid id) = some n) :
    (updateNote (softDeleteNote db uid id).2 uid id
        { isDeleted := some false }).1 = some { n with isDeleted := false } := by
  obtain ⟨pre, post, hdb, hpre, hpn, hres⟩ :=
    updateFirst_found (ownedBy uid id) (fun m => { m with isDeleted := true }) db n h
  have hfind : ((softDeleteNote db uid id).2).find? (ownedBy uid id)
      = some { n with isDeleted := true } := by
    rw [softDeleteNote, hres]
    exact find?_decomp _ _ _ _ hpre (by simpa [ownedBy] using hpn)
  rw [updateNote, updateFirst_fst, hfind]
  simp [applySet]

/-- Witness for C4's amended claim on a concrete archived note: the round trip
returns it unchanged (still archived, not deleted). -/
theorem softDelete_then_restore_wit :
    (updateNote
        (softDeleteNote [⟨1, "T", "C", "General", false, true, false, "u", 0⟩] "u" 1).2
        "u" 1 { isDeleted := some false }).1
      = some ⟨1, "T", "C", "General", false, true, false, "u", 0⟩ := by
  have h := softDelete_then_restore [⟨1, "T", "C", "General", false, true, false, "u", 0⟩]
    "u" 1 ⟨1, "T", "C", "General", false, true, false, "u", 0⟩ (by decide)
  rw [h]

/-- C5: the update is a merge-patch: it rewrites exactly the first owned note
with the given id, leaves every other stored note byte-for-byte in place, sets
exactly the fields present in the payload, and leaves every absent field —
and `id`, `ownerId` (`userId`) and `createdAt` unconditionally — unchanged. -/
theorem updateNote_merge_patch (db : List Note) (uid : String) (id : Nat) (b : UpdateBody)
    (n : Note) (h : db.find? (ownedBy uid id) = some n) :
    ∃ pre post, db = pre ++ n :: post ∧
      (updateNote db uid id b).1 = some (applySet b n) ∧
      (updateNote db uid id b).2 = pre ++ applySet b n :: post ∧
      (applySet b n).id = n.id ∧ (applySet b n).userId = n.userId ∧
      (applySet b n).createdAt = n.createdAt ∧
      (b.title = none → (applySet b n).title = n.title) ∧
      (∀ v, b.title = some v → (applySet b n).title = v) ∧
      (b.content = none → (applySet b n).content = n.content) ∧
      (∀ v, b.content = some v → (applySet b n).content = v) ∧
      (b.courseTag = none → (applySet b n).courseTag = n.courseTag) ∧
      (∀ v, b.courseTag = some v → (applySet b n).courseTag = v) ∧
      (b.isPinned = none → (applySet b n).isPinned = n.isPinned) ∧
      (∀ v, b.isPinned = some v → (applySet b n).isPinned = v) ∧
      (b.isArchived = none → (applySet b n).isArchived = n.isArchived) ∧
      (∀ v, b.isArchived = some v → (applySet b n).isArchived = v) ∧
      (b.isDeleted = none → (applySet b n).isDeleted = n.isDeleted) ∧
      (∀ v, b.isDeleted = some v → (applySet b n).isDeleted = v) := by
  obtain ⟨pre, post, hdb, hpre, hpn, hres⟩ :=
    updateFirst_found (ownedBy uid id) (applySet b) db n h
  refine ⟨pre, post, hdb, by rw [updateNote, hres], by rw [updateNote, hres],
    rfl, rfl, rfl, ?_, ?_, ?_, ?_, ?_, ?_, ?_, ?_, ?_, ?_, ?_, ?_⟩ <;>
    (intros; simp_all [applySet])

/-- Witness for C5: updating only `title` and `isPinned` on a concrete note
changes exactly those two fields. -/
theorem updateNote_merge_patch_wit :
    (updateNote [⟨1, "T", "C", "General", false, false, false, "u", 5⟩] "u" 1
        { title := some "New", isPinned := some true }).1
      = some ⟨1, "New", "C", "General", true, false, false, "u", 5⟩ := by
  obtain ⟨pre, post, _, h, _⟩ :=
    updateNote_merge_patch [⟨1, "T", "C", "General", false, false, false, "u", 5⟩]
      "u" 1 { title := some "New", isPinned := some true }
      ⟨1, "T", "C", "General", false, false, false, "u", 5⟩ (by decide)
  rw [h]
  decide

/-- C6: when no stored note has the requested id AND the caller as owner —
whether the id is absent altogether or the note belongs to a different user —
both the update and the permanent delete return the same not-found response
(`null` match, HTTP 404) and leave the stored notes exactly as they were; the
result does not reveal which of the two causes applied. -/
theorem update_delete_notFound (db : List Note) (uid : String) (id : Nat) (b : UpdateBody)
    (h : ∀ m ∈ db, ownedBy uid id m = false) :
    updateNote db uid id b = (none, db) ∧ permanentDeleteNote db uid id = (none, db) :=
  ⟨updateFirst_none _ _ _ h, removeFirst_none _ _ h⟩

/-- Witness for C6: a store holding only another user's note with the
requested id — the existence of that record does not leak. -/
theorem update_delete_notFound_wit :
    updateNote [⟨1, "T", "C", "General", false, false, false, "other", 0⟩] "u" 1 {}
        = (none, [⟨1, "T", "C", "General", false, false, false, "other", 0⟩]) ∧
      permanentDeleteNote [⟨1, "T", "C", "General", false, false, false, "other", 0⟩] "u" 1
        = (none, [⟨1, "T", "C", "General", false, false, false, "other", 0⟩]) :=
  update_delete_notFound _ _ _ _ (by decide)

/-! ### Note creation: claim C8 -/

/-- C8 counterexample: a create request whose `courseTag` is the supplied
blank string `""` produces a note tagged `""`, not `"General"` — the mongoose
default fires only for an absent (`undefined`) field, and the `trim` setter
keeps the provided empty string. -/
theorem createNote_blank_tag_cex :
    ((createNote [] "u" ⟨some "T", some "C", some ""⟩ 1 0).1).map Note.courseTag = some "" ∧
    ((createNote [] "u" ⟨some "T", some "C", some ""⟩ 1 0).1).map Note.courseTag
      ≠ some "General" := by
  decide

/-- C8 (amended): every create request with a non-empty `title` and `content`
creates and returns a note owned by the requesting identity, with
`isPinned = isArchived = isDeleted = false`, a `createdAt` stamp, and
`courseTag = "General"` when the supplied `courseTag` is absent; a supplied
`courseTag` is stored trimmed (so a supplied blank tag becomes the empty
string, not `"General"`); the created note is appended to the store and
returned. -/
theorem createNote_spec (db : List Note) (uid : String) (b : CreateBody)
    (newId : Nat) (now : Int) (t c : String)
    (ht : b.title = some t) (hc : b.content = some c)
    (ht' : t ≠ "") (hc' : c ≠ "") :
    ∃ note : Note, createNote db uid b newId now = (some note, db ++ [note]) ∧
      note.userId = uid ∧ note.isPinned = false ∧ note.isArchived = false ∧
      note.isDeleted = false ∧ note.createdAt = now ∧ note.id = newId ∧
      note.title = t ∧ note.content = c ∧
      (b.courseTag = none → note.courseTag = "General") ∧
      (∀ s, b.courseTag = some s → note.courseTag = jsTrim s) := by
  refine ⟨Note.mk newId t c
      (match b.courseTag with | none => "General" | some s => jsTrim s)
      false false false uid now,
    ?_, rfl, rfl, rfl, rfl, rfl, rfl, rfl, rfl, ?_, ?_⟩
  · rw [createNote, ht, hc]
    simp [ht', hc']
  · intro hn; simp [hn]
  · intro s hs; simp [hs]

/-- Witness for C8: creating a note with no `courseTag` in the body defaults
the tag to `"General"`, owner and flags as specified. -/
theorem createNote_spec_wit :
    ∃ note : Note, createNote [] "u" ⟨some "T", some "C", none⟩ 7 3 = (some note, [note]) ∧
      note.courseTag = "General" ∧ note.userId = "u" ∧ note.isPinned = false ∧
      note.isArchived = false ∧ note.isDeleted = false ∧ note.createdAt = 3 := by
  obtain ⟨note, h1, h2, h3, h4, h5, h6, h7, h8, h9, h10, h11⟩ :=
    createNote_spec [] "u" ⟨some "T", some "C", none⟩ 7 3 "T" "C" rfl rfl
      (by decide) (by decide)
  exact ⟨note, by simpa using h1, h10 rfl, h2, h3, h4, h5, h6⟩

/-! ### Distinct tags: claim C9 -/

/-- C9: `distinctTags` returns a duplicate-free list whose members are exactly
the non-empty `courseTag` values of the caller's notes that are neither
archived nor deleted — tags occurring only on archived or trashed notes, empty
tags, and other users' tags are all excluded. -/
theorem distinctTags_spec (db : List Note) (uid : String) :
    (distinctTags db uid).Nodup ∧
    ∀ t : String, t ∈ distinctTags db uid ↔
      (t ≠ "" ∧ ∃ n ∈ db, n.userId = uid ∧ n.isArchived = false ∧
        n.isDeleted = false ∧ n.courseTag = t) := by
  constructor
  · exact List.Nodup.filter _ (List.nodup_dedup _)
  · intro t
    simp [distinctTags, List.mem_filter, List.mem_dedup, List.mem_map]
    tauto

end Planner
